import Mathlib

/-!
Shallow embedding of the seed-generation and backup-confirmation workflow of
firmware/reset.c (reset_init, reset_entropy, reset_backup) together with
theorems about the embedded definitions.

Modelling conventions:
* the static variables of reset.c (strength, int_entropy, awaiting_entropy,
  skip_backup, no_backup, current_word) and the persisted configuration form a
  single explicit `State` threaded through the functions;
* every outward effect (messages to the host, display calls, configuration
  writes, collaborator calls) is recorded as an `Event` in an output trace, in
  the order the C code performs it;
* the physical-button collaborator `protectButton` is an oracle: a list of
  booleans consumed in call order (an exhausted oracle answers "declined");
  the PIN-setup collaborator `protectChangePin` is a single boolean oracle;
* the RNG collaborator `random_buffer` is modelled by passing the 32 generated
  bytes as an argument;
* the digest and mnemonic collaborators (sha2.c, bip39.c) are not part of the
  sources; they are carried as function parameters in `Env`, modelled from the
  spec: a deterministic `hash` over the accumulated bytes and a deterministic
  `mnemonic_from_data` over the entropy bytes handed to it; the outcome of
  `config_setMnemonic` is the boolean `storeOk`.
-/

/-- Persisted configuration owned by the ConfigStore collaborator. -/
structure Config where
  passphrase_protection : Bool
  language : String
  label : String
  u2f_counter : Nat
  needs_backup : Bool
  unfinished_backup : Bool
  no_backup : Bool
  mnemonic : Option String
deriving DecidableEq

/-- The static variables of reset.c plus the persisted configuration. -/
structure State where
  strength : Nat
  int_entropy : List Nat
  awaiting_entropy : Bool
  skip_backup : Bool
  no_backup : Bool
  current_word : String
  config : Config
deriving DecidableEq

/-- External collaborators that are outside the translated sources, modelled
from the spec: the digest primitive (32-byte deterministic hash), the
mnemonic-derivation primitive, and the success outcome of the mnemonic
persistence call. -/
structure Env where
  hash : List Nat → List Nat
  mnemonic_from_data : List Nat → String
  storeOk : Bool

/-- Button-request kinds used by this workflow (messages.pb). -/
inductive BRType where
  | ProtectCall
  | ResetDevice
  | ConfirmWord
deriving DecidableEq

/-- Failure kinds surfaced to the host (messages.pb). -/
inductive FailureT where
  | ActionCancelled
  | UnexpectedMessage
  | ProcessError
deriving DecidableEq

/-- Observable effects of the workflow, recorded in call order. -/
inductive Event where
  | sendFailure (ft : FailureT) (msg : Option String)
  | sendSuccess (msg : String)
  | layoutHome
  | layoutConfirmCreate
  | layoutEntropy (lines : List String)
  | buttonRequest (t : BRType) (hold : Bool)
  | changePin
  | layoutResetWord (word : String) (pass : Nat) (word_pos : Nat) (is_last : Bool)
  | msgEntropyRequest
  | sessionClear
  | setPassphraseProtection (b : Bool)
  | setLanguage (s : String)
  | setLabel (s : String)
  | setU2FCounter (n : Nat)
  | setNoBackup
  | setNeedsBackup (b : Bool)
  | setUnfinishedBackup (b : Bool)
  | setMnemonic (m : String)
  | deriveMnemonic (data : List Nat)
  | mnemonicClear
deriving DecidableEq

/-- Configuration write: passphrase protection flag. -/
def config_setPassphraseProtection (b : Bool) (st : State) : State :=
  { st with config := { st.config with passphrase_protection := b } }

/-- Configuration write: language. -/
def config_setLanguage (s : String) (st : State) : State :=
  { st with config := { st.config with language := s } }

/-- Configuration write: label. -/
def config_setLabel (s : String) (st : State) : State :=
  { st with config := { st.config with label := s } }

/-- Configuration write: U2F counter. -/
def config_setU2FCounter (n : Nat) (st : State) : State :=
  { st with config := { st.config with u2f_counter := n } }

/-- Configuration write: permanent no-backup opt-out. -/
def config_setNoBackup (st : State) : State :=
  { st with config := { st.config with no_backup := true } }

/-- Configuration write: needs-backup flag. -/
def config_setNeedsBackup (b : Bool) (st : State) : State :=
  { st with config := { st.config with needs_backup := b } }

/-- Configuration write: unfinished-backup flag. -/
def config_setUnfinishedBackup (b : Bool) (st : State) : State :=
  { st with config := { st.config with unfinished_backup := b } }

/-- Configuration write of the mnemonic; returns whether persistence
succeeded (modelled by the collaborator flag `storeOk`). -/
def config_setMnemonic (env : Env) (m : String) (st : State) : Bool × State :=
  if env.storeOk then (true, { st with config := { st.config with mnemonic := some m } })
  else (false, st)

/-- Modelled from the spec: the incremental digest context of sha2.c holds the
bytes accumulated so far. -/
structure SHA256_CTX where
  buf : List Nat
deriving DecidableEq

/-- Modelled from the spec: sha256_Init starts an empty accumulation. -/
def sha256_Init : SHA256_CTX := ⟨[]⟩

/-- Modelled from the spec: sha256_Update appends the given bytes. -/
def sha256_Update (ctx : SHA256_CTX) (data : List Nat) : SHA256_CTX :=
  ⟨ctx.buf ++ data⟩

/-- Modelled from the spec: sha256_Final produces the digest of all
accumulated bytes using the deterministic digest collaborator. -/
def sha256_Final (env : Env) (ctx : SHA256_CTX) : List Nat :=
  env.hash ctx.buf

/-- One hexadecimal digit, lowercase, as produced by data2hex of util.c. -/
def hexDigit (n : Nat) : Char :=
  if n < 10 then Char.ofNat (48 + n) else Char.ofNat (87 + n)

/-- Hexadecimal rendering of a byte sequence (data2hex of util.c). -/
def data2hex (bytes : List Nat) : String :=
  String.mk ((bytes.map (fun b => [hexDigit ((b % 256) / 16), hexDigit (b % 16)])).flatten)

/-- Inner copy loop of reset_backup (reset.c lines 149-153): starting with
write index j, copy characters of the mnemonic into current_word while the
character is not a space, not the terminator, and j + 1 < sizeof(current_word)
= 10. Returns the copied characters and the remaining suffix. -/
def splitWord : List Char → Nat → List Char × List Char
  | [], _ => ([], [])
  | c :: cs, j =>
    if c ≠ ' ' ∧ j + 1 < 10 then
      let p := splitWord cs (j + 1)
      (c :: p.1, p.2)
    else ([], c :: cs)

/-- Events of the cancellation path inside the word loop (reset.c lines
159-165): session_clear when inline, then layoutHome, then the failure. -/
def cancelEvents (separated : Bool) : List Event :=
  (if separated then [] else [Event.sessionClear]) ++
    [Event.layoutHome, Event.sendFailure .ActionCancelled none]

/-- Result of one pass of the word loop: either the pass finished (remaining
button oracle, state, trace) or the user cancelled. -/
inductive LoopResult where
  | done (buttons : List Bool) (st : State) (tr : List Event)
  | cancelled (st : State) (tr : List Event)
deriving DecidableEq

/-- One pass of the word-confirmation loop of reset_backup (reset.c lines
147-168): while the mnemonic suffix is nonempty, copy the next word into
current_word, advance one character when the suffix is not exhausted, display
the word with (pass, word_pos, is_last), and require a confirmation. -/
def backup_words (separated : Bool) (pass : Nat) :
    List Bool → List Char → Nat → State → LoopResult
  | buttons, m, word_pos, st =>
    if m.isEmpty then .done buttons st []
    else
      let p := splitWord m 0
      let r := if p.2.isEmpty then p.2 else p.2.tail
      let word := String.mk p.1
      let st := { st with current_word := word }
      let ev := [Event.layoutResetWord word pass word_pos r.isEmpty,
                 Event.buttonRequest .ConfirmWord true]
      match buttons with
      | [] => .cancelled st (ev ++ cancelEvents separated)
      | b :: bs =>
        if b then
          match backup_words separated pass bs r (word_pos + 1) st with
          | .done bb stt tr => .done bb stt (ev ++ tr)
          | .cancelled stt tr => .cancelled stt (ev ++ tr)
        else .cancelled st (ev ++ cancelEvents separated)

/-- reset_backup of reset.c (lines 131-184): the separated-mode gate and flag
writes, two passes of word confirmation, then the completion writes and the
success or failure reply. -/
def reset_backup (env : Env) (buttons : List Bool) (separated : Bool)
    (mnemonic : String) (st : State) : State × List Event :=
  if separated && !st.config.needs_backup then
    (st, [.sendFailure .UnexpectedMessage (some "Seed already backed up")])
  else
    let pre : State × List Event :=
      if separated then
        (config_setNeedsBackup false (config_setUnfinishedBackup true st),
         [.setUnfinishedBackup true, .setNeedsBackup false])
      else (st, [])
    match backup_words separated 0 buttons mnemonic.data 1 pre.1 with
    | .cancelled st1 tr0 => (st1, pre.2 ++ tr0)
    | .done buttons1 st1 tr0 =>
      match backup_words separated 1 buttons1 mnemonic.data 1 st1 with
      | .cancelled st2 tr1 => (st2, pre.2 ++ tr0 ++ tr1)
      | .done _ st2 tr1 =>
        let st3 := config_setUnfinishedBackup false st2
        let tr2 := pre.2 ++ tr0 ++ tr1 ++ [Event.setUnfinishedBackup false]
        if separated then
          (st3, tr2 ++ [.sendSuccess "Seed successfully backed up", .layoutHome])
        else
          let st4 := config_setNeedsBackup false st3
          let q := config_setMnemonic env mnemonic st4
          (q.2, tr2 ++ [.setNeedsBackup false, .setMnemonic mnemonic] ++
            (if q.1 then [Event.sendSuccess "Device successfully initialized"]
             else [Event.sendFailure .ProcessError (some "Failed to store mnemonic")]) ++
            [.layoutHome])

/-- reset_entropy of reset.c (lines 94-126): the awaiting gate, digesting
internal then external entropy into int_entropy, mnemonic derivation from the
first strength/8 digest bytes, zeroing of int_entropy, and the dispatch on
skip_backup and no_backup. -/
def reset_entropy (env : Env) (buttons : List Bool) (ext : List Nat)
    (st : State) : State × List Event :=
  if !st.awaiting_entropy then
    (st, [.sendFailure .UnexpectedMessage (some "Not in Reset mode")])
  else
    let st := { st with awaiting_entropy := false }
    let ctx := sha256_Init
    let ctx := sha256_Update ctx st.int_entropy
    let ctx := sha256_Update ctx ext
    let st := { st with int_entropy := sha256_Final env ctx }
    let data := st.int_entropy.take (st.strength / 8)
    let mnemonic := env.mnemonic_from_data data
    let st := { st with int_entropy := List.replicate 32 0 }
    let tr := [Event.deriveMnemonic data]
    if st.skip_backup || st.no_backup then
      let p : State × List Event :=
        if st.no_backup then (config_setNoBackup st, tr ++ [.setNoBackup])
        else (config_setNeedsBackup true st, tr ++ [.setNeedsBackup true])
      let q := config_setMnemonic env mnemonic p.1
      (q.2, p.2 ++ [.setMnemonic mnemonic] ++
        (if q.1 then [Event.sendSuccess "Device successfully initialized"]
         else [Event.sendFailure .ProcessError (some "Failed to store mnemonic")]) ++
        [.layoutHome, .mnemonicClear])
    else
      let p := reset_backup env buttons false mnemonic st
      (p.1, tr ++ p.2 ++ [.mnemonicClear])

/-- Tail of reset_init past the confirmation gates (reset.c lines 78-91): the
PIN-setup delegation, the four configuration writes, the entropy request, and
setting awaiting_entropy. -/
def reset_init_finish (pin_protection pinOk passphrase_protection : Bool)
    (language label : String) (u2f_counter : Nat) (st : State) :
    State × List Event :=
  if pin_protection && !pinOk then
    (st, [.changePin, .layoutHome])
  else
    let tr := if pin_protection then [Event.changePin] else []
    let st := config_setPassphraseProtection passphrase_protection st
    let st := config_setLanguage language st
    let st := config_setLabel label st
    let st := config_setU2FCounter u2f_counter st
    let st := { st with awaiting_entropy := true }
    (st, tr ++ [.setPassphraseProtection passphrase_protection,
                .setLanguage language, .setLabel label,
                .setU2FCounter u2f_counter, .msgEntropyRequest])

/-- reset_init of reset.c (lines 40-92): strength validation, the
display-random versus skipped-backup guard, the create-wallet confirmation,
entropy generation, the optional entropy display and confirmation, then the
tail `reset_init_finish`. -/
def reset_init (rand : List Nat) (buttons : List Bool)
    (pinOk : Bool) (display_random : Bool) (s : Nat)
    (passphrase_protection pin_protection : Bool) (language label : String)
    (u2f_counter : Nat) (sk nb : Bool) (st : State) : State × List Event :=
  if s ≠ 128 ∧ s ≠ 192 ∧ s ≠ 256 then (st, [])
  else
    let st := { st with strength := s, skip_backup := sk, no_backup := nb }
    if display_random && (sk || nb) then
      (st, [.sendFailure .ProcessError
              (some "Can\x27t show internal entropy when backup is skipped"),
            .layoutHome])
    else
      let tr := [Event.layoutConfirmCreate, Event.buttonRequest .ProtectCall false]
      let b1 := buttons.headD false
      let buttons := buttons.tail
      if !b1 then
        (st, tr ++ [.sendFailure .ActionCancelled none, .layoutHome])
      else
        let st := { st with int_entropy := rand }
        if display_random then
          let ent0 := data2hex (st.int_entropy.take 8)
          let ent1 := data2hex ((st.int_entropy.drop 8).take 8)
          let ent2 := data2hex ((st.int_entropy.drop 16).take 8)
          let ent3 := data2hex ((st.int_entropy.drop 24).take 8)
          let tr := tr ++ [.layoutEntropy [ent0, ent1, ent2, ent3],
                           .buttonRequest .ResetDevice false]
          let b2 := buttons.headD false
          if !b2 then
            (st, tr ++ [.sendFailure .ActionCancelled none, .layoutHome])
          else
            let p := reset_init_finish pin_protection pinOk
              passphrase_protection language label u2f_counter st
            (p.1, tr ++ p.2)
        else
          let p := reset_init_finish pin_protection pinOk
            passphrase_protection language label u2f_counter st
          (p.1, tr ++ p.2)

/-- Words joined by single spaces, the shape of a well-formed mnemonic. -/
def joinWords : List (List Char) → List Char
  | [] => []
  | w :: ws => w ++ (if ws.isEmpty then [] else ' ' :: joinWords ws)

/-- A well-formed word list: every word is nonempty, fits the display buffer
(at most 9 characters) and contains no space. -/
abbrev validWords (ws : List (List Char)) : Prop :=
  ∀ w ∈ ws, w ≠ [] ∧ w.length ≤ 9 ∧ ∀ c ∈ w, c ≠ ' '

/-- Expected display and confirmation events of one fully confirmed pass. -/
def passEventsW : List (List Char) → Nat → Nat → List Event
  | [], _, _ => []
  | w :: ws, pass, wp =>
    Event.layoutResetWord (String.mk w) pass wp ws.isEmpty ::
      Event.buttonRequest .ConfirmWord true :: passEventsW ws pass (wp + 1)

/-- Last displayed word of a pass, with a default for the empty pass. -/
def lastWord (d : String) : List (List Char) → String
  | [] => d
  | w :: ws => lastWord (String.mk w) ws

/-- A concrete environment used to instantiate universally quantified
theorems: a constant digest, a constant two-word mnemonic, and a
configuration store whose mnemonic write succeeds. -/
def env0 : Env := ⟨fun _ => List.replicate 32 0, fun _ => "all hour", true⟩

/-- A blank configuration. -/
def cfg0 : Config := ⟨false, "", "", 0, false, false, false, none⟩

/-- A blank device state: zeroed entropy buffer, no session in progress. -/
def st0 : State := ⟨0, List.replicate 32 0, false, false, false, "", cfg0⟩

lemma splitWord_append (w : List Char) :
    ∀ (r : List Char) (j : Nat), (∀ c ∈ w, c ≠ ' ') → j + w.length ≤ 9 →
      (r = [] ∨ ∃ t, r = ' ' :: t) → splitWord (w ++ r) j = (w, r) := by
  induction w with
  | nil =>
    intro r j _ _ hr
    rcases hr with rfl | ⟨t, rfl⟩
    · rfl
    · simp [splitWord]
  | cons c cs ih =>
    intro r j hw hlen hr
    have hc : c ≠ ' ' := hw c (by simp)
    have hj : j + 1 < 10 := by simp at hlen; omega
    have hrec := ih r (j + 1) (fun x hx => hw x (by simp [hx])) (by simp at hlen ⊢; omega) hr
    simp [splitWord, hc, hj, hrec]

lemma splitWord_long (w : List Char) :
    ∀ j : Nat, (∀ c ∈ w, c ≠ ' ') → 9 ≤ j + w.length → j ≤ 9 →
      splitWord w j = (w.take (9 - j), w.drop (9 - j)) := by
  induction w with
  | nil => intro j _ h9 hj; simp [splitWord]
  | cons c cs ih =>
    intro j hw h9 hj
    by_cases hj9 : j = 9
    · subst hj9
      simp [splitWord]
    · have hc : c ≠ ' ' := hw c (by simp)
      have hjlt : j + 1 < 10 := by omega
      have hrec := ih (j + 1) (fun x hx => hw x (by simp [hx])) (by simp at h9 ⊢; omega) (by omega)
      have h91 : 9 - j = (9 - (j + 1)) + 1 := by omega
      simp [splitWord, hc, hjlt, hrec, h91]

lemma backup_words_confirm (ws : List (List Char)) :
    ∀ (bs : List Bool) (sep : Bool) (pass wp : Nat) (st : State), validWords ws →
      backup_words sep pass (List.replicate ws.length true ++ bs) (joinWords ws) wp st =
        .done bs { st with current_word := lastWord st.current_word ws }
          (passEventsW ws pass wp) := by
  induction ws with
  | nil =>
    intro bs sep pass wp st _
    simp [backup_words, joinWords, lastWord, passEventsW]
  | cons w ws ih =>
    intro bs sep pass wp st hv
    obtain ⟨hw_ne, hw_len, hw_sp⟩ := hv w (by simp)
    have hvt : validWords ws := fun x hx => hv x (by simp [hx])
    have hjoin : joinWords (w :: ws) = w ++ (if ws.isEmpty then [] else ' ' :: joinWords ws) := rfl
    have hsplit : splitWord (w ++ (if ws.isEmpty then [] else ' ' :: joinWords ws)) 0 =
        (w, if ws.isEmpty then [] else ' ' :: joinWords ws) := by
      apply splitWord_append w _ 0 hw_sp (by simpa using hw_len)
      cases ws with
      | nil => exact Or.inl rfl
      | cons v t => exact Or.inr ⟨joinWords (v :: t), rfl⟩
    have hne : (w ++ (if ws.isEmpty then [] else ' ' :: joinWords ws)).isEmpty = false := by
      cases w with
      | nil => exact absurd rfl hw_ne
      | cons a as => simp
    have hr : (if (if ws.isEmpty then ([] : List Char) else ' ' :: joinWords ws).isEmpty
        then (if ws.isEmpty then ([] : List Char) else ' ' :: joinWords ws)
        else (if ws.isEmpty then ([] : List Char) else ' ' :: joinWords ws).tail) = joinWords ws := by
      cases ws with
      | nil => simp [joinWords]
      | cons v t => simp
    have hlast : (joinWords ws).isEmpty = ws.isEmpty := by
      cases ws with
      | nil => simp [joinWords]
      | cons v t =>
        obtain ⟨hv_ne, -, -⟩ := hvt v (by simp)
        cases v with
        | nil => exact absurd rfl hv_ne
        | cons a as => simp [joinWords]
    have hbtn : List.replicate (w :: ws).length true ++ bs =
        true :: (List.replicate ws.length true ++ bs) := by
      simp [List.replicate_succ]
    rw [hjoin, hbtn]
    rw [backup_words]
    simp only [hne, Bool.false_eq_true, if_false, hsplit]
    rw [hr]
    simp only [if_true]
    rw [ih (bs) sep pass (wp + 1) _ hvt]
    simp [hlast, passEventsW, lastWord]

lemma backup_words_cancelled_home (btns : List Bool) :
    ∀ (sep : Bool) (pass : Nat) (m : List Char) (wp : Nat) (st st2 : State) (tr : List Event),
      backup_words sep pass btns m wp st = .cancelled st2 tr → Event.layoutHome ∈ tr := by
  induction btns with
  | nil =>
    intro sep pass m wp st st2 tr h
    rw [backup_words] at h
    by_cases hm : m.isEmpty
    · simp [hm] at h
    · simp only [hm, Bool.false_eq_true, if_false] at h
      obtain ⟨-, rfl⟩ := LoopResult.cancelled.inj h
      simp [cancelEvents]
  | cons b bs ih =>
    intro sep pass m wp st st2 tr h
    rw [backup_words] at h
    by_cases hm : m.isEmpty
    · simp [hm] at h
    · simp only [hm, Bool.false_eq_true, if_false] at h
      by_cases hb : b
      · subst hb
        simp only [if_true] at h
        rcases hrec : backup_words sep pass bs
            (if (splitWord m 0).2.isEmpty then (splitWord m 0).2 else (splitWord m 0).2.tail)
            (wp + 1) { st with current_word := String.mk (splitWord m 0).1 } with
          ⟨bb, stt, trr⟩ | ⟨stt, trr⟩
        · rw [hrec] at h
          simp at h
        · rw [hrec] at h
          obtain ⟨-, rfl⟩ := LoopResult.cancelled.inj h
          have := ih sep pass _ (wp + 1) _ _ _ hrec
          simp [this]
      · simp only [hb, if_false] at h
        obtain ⟨-, rfl⟩ := LoopResult.cancelled.inj h
        simp [cancelEvents]

lemma reset_backup_home (env : Env) (bs : List Bool) (sep : Bool) (m : String) (st : State)
    (h : sep = true → st.config.needs_backup = true) :
    Event.layoutHome ∈ (reset_backup env bs sep m st).2 := by
  have hguard : (sep && !st.config.needs_backup) = false := by
    cases sep with
    | false => rfl
    | true => simp [h rfl]
  rw [reset_backup]
  simp only [hguard, Bool.false_eq_true, if_false]
  rcases h0 : backup_words sep 0 bs m.data 1
      (if sep then (config_setNeedsBackup false (config_setUnfinishedBackup true st),
          ([.setUnfinishedBackup true, .setNeedsBackup false] : List Event))
        else (st, [])).1 with ⟨b1, st1, tr0⟩ | ⟨st1, tr0⟩
  · rcases h1 : backup_words sep 1 b1 m.data 1 st1 with ⟨b2, st2, tr1⟩ | ⟨st2, tr1⟩
    · cases sep <;> simp [h0, h1]
    · have := backup_words_cancelled_home _ _ _ _ _ _ _ _ h1
      simp [h0, h1, this]
  · have := backup_words_cancelled_home _ _ _ _ _ _ _ _ h0
    simp [h0, this]

lemma backup_words_only_current_word (btns : List Bool) :
    ∀ (sep : Bool) (pass : Nat) (m : List Char) (wp : Nat) (st : State),
      (∀ b s tr, backup_words sep pass btns m wp st = .done b s tr →
        ∃ cw, s = { st with current_word := cw }) ∧
      (∀ s tr, backup_words sep pass btns m wp st = .cancelled s tr →
        ∃ cw, s = { st with current_word := cw }) := by
  induction btns with
  | nil =>
    intro sep pass m wp st
    constructor
    · intro b s tr h
      rw [backup_words] at h
      by_cases hm : m.isEmpty
      · simp [hm] at h
        exact ⟨st.current_word, by simp [h.2.1]⟩
      · simp [hm] at h
    · intro s tr h
      rw [backup_words] at h
      by_cases hm : m.isEmpty
      · simp [hm] at h
      · simp only [hm, Bool.false_eq_true, if_false] at h
        obtain ⟨rfl, -⟩ := LoopResult.cancelled.inj h
        exact ⟨_, rfl⟩
  | cons b bs ih =>
    intro sep pass m wp st
    constructor
    · intro bb s tr h
      rw [backup_words] at h
      by_cases hm : m.isEmpty
      · simp [hm] at h
        exact ⟨st.current_word, by simp [h.2.1]⟩
      · simp only [hm, Bool.false_eq_true, if_false] at h
        by_cases hb : b
        · subst hb
          simp only [if_true] at h
          rcases hrec : backup_words sep pass bs
              (if (splitWord m 0).2.isEmpty then (splitWord m 0).2 else (splitWord m 0).2.tail)
              (wp + 1) { st with current_word := String.mk (splitWord m 0).1 } with
            ⟨b2, s2, tr2⟩ | ⟨s2, tr2⟩
          · rw [hrec] at h
            obtain ⟨-, rfl, -⟩ := LoopResult.done.inj h
            obtain ⟨cw, hcw⟩ := (ih sep pass _ (wp + 1) _).1 _ _ _ hrec
            exact ⟨cw, by simp [hcw]⟩
          · rw [hrec] at h
            simp at h
        · simp [hb] at h
    · intro s tr h
      rw [backup_words] at h
      by_cases hm : m.isEmpty
      · simp [hm] at h
      · simp only [hm, Bool.false_eq_true, if_false] at h
        by_cases hb : b
        · subst hb
          simp only [if_true] at h
          rcases hrec : backup_words sep pass bs
              (if (splitWord m 0).2.isEmpty then (splitWord m 0).2 else (splitWord m 0).2.tail)
              (wp + 1) { st with current_word := String.mk (splitWord m 0).1 } with
            ⟨b2, s2, tr2⟩ | ⟨s2, tr2⟩
          · rw [hrec] at h
            simp at h
          · rw [hrec] at h
            obtain ⟨rfl, -⟩ := LoopResult.cancelled.inj h
            obtain ⟨cw, hcw⟩ := (ih sep pass _ (wp + 1) _).2 _ _ hrec
            exact ⟨cw, by simp [hcw]⟩
        · simp only [hb, if_false] at h
          obtain ⟨rfl, -⟩ := LoopResult.cancelled.inj h
          exact ⟨_, rfl⟩

lemma reset_backup_int_entropy (env : Env) (bs : List Bool) (sep : Bool) (m : String)
    (st : State) : ((reset_backup env bs sep m st).1).int_entropy = st.int_entropy := by
  rw [reset_backup]
  by_cases hguard : (sep && !st.config.needs_backup) = true
  · simp [hguard]
  · simp only [hguard, if_false]
    set pre := (if sep then
        (config_setNeedsBackup false (config_setUnfinishedBackup true st),
          ([.setUnfinishedBackup true, .setNeedsBackup false] : List Event))
      else (st, [])) with hpre
    have hpre1 : pre.1.int_entropy = st.int_entropy := by
      rw [hpre]; cases sep <;> simp [config_setNeedsBackup, config_setUnfinishedBackup]
    rcases h0 : backup_words sep 0 bs m.data 1 pre.1 with ⟨b1, st1, tr0⟩ | ⟨st1, tr0⟩
    · obtain ⟨cw1, hcw1⟩ := (backup_words_only_current_word bs sep 0 m.data 1 pre.1).1 _ _ _ h0
      have e1 : st1.int_entropy = st.int_entropy := by rw [hcw1]; exact hpre1
      rcases h1 : backup_words sep 1 b1 m.data 1 st1 with ⟨b2, st2, tr1⟩ | ⟨st2, tr1⟩
      · obtain ⟨cw2, hcw2⟩ := (backup_words_only_current_word b1 sep 1 m.data 1 st1).1 _ _ _ h1
        have e2 : st2.int_entropy = st.int_entropy := by rw [hcw2]; exact e1
        simp only [h0, h1]
        cases sep <;>
          simp [config_setUnfinishedBackup, config_setNeedsBackup, config_setMnemonic, e2] <;>
          split <;> simp [e2]
      · obtain ⟨cw2, hcw2⟩ := (backup_words_only_current_word b1 sep 1 m.data 1 st1).2 _ _ h1
        have e2 : st2.int_entropy = st.int_entropy := by rw [hcw2]; exact e1
        simp only [h0, h1]
        simp [e2]
    · obtain ⟨cw1, hcw1⟩ := (backup_words_only_current_word bs sep 0 m.data 1 pre.1).2 _ _ h0
      have e1 : st1.int_entropy = st.int_entropy := by rw [hcw1]; exact hpre1
      simp only [h0]
      simp [e1]

/-- Claim C3: an external entropy message received while awaiting_entropy is
false makes reset_entropy fail with the unexpected-message error "Not in
Reset mode" and leaves the whole state, session and persisted configuration
alike, unchanged. -/
theorem claim_C3 (env : Env) (bs : List Bool) (ext : List Nat) (st : State)
    (h : st.awaiting_entropy = false) :
    reset_entropy env bs ext st =
      (st, [.sendFailure .UnexpectedMessage (some "Not in Reset mode")]) := by
  simp [reset_entropy, h]

/-- Witness for claim C3 at the blank state. -/
theorem claim_C3_witness :
    st0.awaiting_entropy = false ∧
      reset_entropy env0 [] [] st0 =
        (st0, [.sendFailure .UnexpectedMessage (some "Not in Reset mode")]) :=
  ⟨rfl, claim_C3 env0 [] [] st0 rfl⟩

/-- Claim C2: with awaiting_entropy set, reset_entropy hands the digest
collaborator the concatenation internal entropy followed by external entropy;
assuming the 32-byte digest contract, the mnemonic collaborator receives
exactly the first strength/8 bytes of that one digest, of length 16, 24 or 32,
and the raw entropy buffer is zeroed by the time the call returns. -/
theorem claim_C2 (env : Env) (bs : List Bool) (ext : List Nat) (st : State)
    (hA : st.awaiting_entropy = true)
    (hlen : (env.hash (st.int_entropy ++ ext)).length = 32)
    (hs : st.strength = 128 ∨ st.strength = 192 ∨ st.strength = 256) :
    ((reset_entropy env bs ext st).2).head? =
        some (.deriveMnemonic ((env.hash (st.int_entropy ++ ext)).take (st.strength / 8))) ∧
      ((env.hash (st.int_entropy ++ ext)).take (st.strength / 8)).length = st.strength / 8 ∧
      ((reset_entropy env bs ext st).1).int_entropy = List.replicate 32 0 := by
  refine ⟨?_, ?_, ?_⟩
  · rw [reset_entropy]
    simp only [hA, Bool.not_true, Bool.false_eq_true, if_false]
    simp [sha256_Init, sha256_Update, sha256_Final]
    split
    · split <;> simp
    · simp
  · rw [List.length_take, hlen]
    rcases hs with h | h | h <;> simp [h]
  · rw [reset_entropy]
    simp only [hA, Bool.not_true, Bool.false_eq_true, if_false]
    simp only [sha256_Init, sha256_Update, sha256_Final]
    split
    · split <;> simp [config_setNoBackup, config_setNeedsBackup, config_setMnemonic] <;>
        split <;> simp
    · exact reset_backup_int_entropy _ _ _ _ _

/-- An awaiting-entropy state with strength 128, for witnesses. -/
def stA : State := { st0 with awaiting_entropy := true, strength := 128 }

/-- Witness for claim C2 at a concrete environment and awaiting state. -/
theorem claim_C2_witness :
    (stA.awaiting_entropy = true ∧
        (env0.hash (stA.int_entropy ++ [1, 2])).length = 32 ∧
        (stA.strength = 128 ∨ stA.strength = 192 ∨ stA.strength = 256)) ∧
      (((reset_entropy env0 [] [1, 2] stA).2).head? =
          some (.deriveMnemonic ((env0.hash (stA.int_entropy ++ [1, 2])).take (stA.strength / 8))) ∧
        ((env0.hash (stA.int_entropy ++ [1, 2])).take (stA.strength / 8)).length = stA.strength / 8 ∧
        ((reset_entropy env0 [] [1, 2] stA).1).int_entropy = List.replicate 32 0) :=
  ⟨⟨rfl, by decide, Or.inl rfl⟩, claim_C2 env0 [] [1, 2] stA rfl (by decide) (Or.inl rfl)⟩

/-- Claim C4: a separated reset_backup with needs_backup false fails with the
unexpected-message error "Seed already backed up" and changes nothing; with
needs_backup true it writes unfinished_backup = true and needs_backup = false
as its first two effects, before any word display or confirmation request, so
that even a cancellation at the very first word leaves those flags written. -/
theorem claim_C4 (env : Env) (bs : List Bool) (m : String) (st : State) :
    (st.config.needs_backup = false →
      reset_backup env bs true m st =
        (st, [.sendFailure .UnexpectedMessage (some "Seed already backed up")])) ∧
    (st.config.needs_backup = true →
      (∃ p : State × List Event,
        reset_backup env bs true m st =
          (p.1, .setUnfinishedBackup true :: .setNeedsBackup false :: p.2)) ∧
      (m.data ≠ [] →
        ((reset_backup env (false :: bs) true m st).1).config.unfinished_backup = true ∧
        ((reset_backup env (false :: bs) true m st).1).config.needs_backup = false)) := by
  constructor
  · intro h
    simp [reset_backup, h]
  · intro h
    constructor
    · rw [reset_backup]
      simp only [h, Bool.not_true, Bool.and_false, Bool.false_eq_true, if_false, if_true]
      rcases h0 : backup_words true 0 bs m.data 1
          (config_setNeedsBackup false (config_setUnfinishedBackup true st)) with
        ⟨b1, st1, tr0⟩ | ⟨st1, tr0⟩
      · rcases h1 : backup_words true 1 b1 m.data 1 st1 with ⟨b2, st2, tr1⟩ | ⟨st2, tr1⟩
        · exact ⟨(config_setUnfinishedBackup false st2,
            tr0 ++ tr1 ++ [.setUnfinishedBackup false,
              .sendSuccess "Seed successfully backed up", .layoutHome]), by simp [h0, h1]⟩
        · exact ⟨(st2, tr0 ++ tr1), by simp [h0, h1]⟩
      · exact ⟨(st1, tr0), by simp [h0]⟩
    · intro hm
      rw [reset_backup]
      simp only [h, Bool.not_true, Bool.and_false, Bool.false_eq_true, if_false, if_true]
      rw [backup_words]
      have hme : m.data.isEmpty = false := by
        cases hd : m.data with
        | nil => exact absurd hd hm
        | cons a l => rfl
      simp [hme, config_setNeedsBackup, config_setUnfinishedBackup]

/-- A state whose persisted configuration has needs_backup set. -/
def stNB : State := { st0 with config := { cfg0 with needs_backup := true } }

/-- Witness for claim C4: the failure case at a blank state and the
flags-written-before-cancellation case at a needs-backup state. -/
theorem claim_C4_witness :
    reset_backup env0 [] true "all hour" st0 =
        (st0, [.sendFailure .UnexpectedMessage (some "Seed already backed up")]) ∧
      ((reset_backup env0 [false] true "all hour" stNB).1).config.unfinished_backup = true ∧
      ((reset_backup env0 [false] true "all hour" stNB).1).config.needs_backup = false :=
  ⟨(claim_C4 env0 [] "all hour" st0).1 rfl,
   ((claim_C4 env0 [] "all hour" stNB).2 rfl).2 (by decide)⟩

/-- Claim C9: after derivation, reset_entropy dispatches on the two flags.
With no_backup it marks the permanent opt-out, persists the mnemonic directly
and reports by the persistence outcome; with skip_backup alone it sets
needs_backup and does the same; with neither it delegates to the inline
backup session, every event after the derivation being the backup session
trace followed only by the mnemonic clear. -/
theorem claim_C9 (env : Env) (bs : List Bool) (ext : List Nat) (st : State)
    (hA : st.awaiting_entropy = true) :
    (st.no_backup = true →
      ((reset_entropy env bs ext st).1).config.no_backup = true ∧
      Event.setMnemonic (env.mnemonic_from_data
          ((env.hash (st.int_entropy ++ ext)).take (st.strength / 8))) ∈
        (reset_entropy env bs ext st).2 ∧
      (env.storeOk = true →
        Event.sendSuccess "Device successfully initialized" ∈ (reset_entropy env bs ext st).2 ∧
        ((reset_entropy env bs ext st).1).config.mnemonic =
          some (env.mnemonic_from_data
            ((env.hash (st.int_entropy ++ ext)).take (st.strength / 8)))) ∧
      (env.storeOk = false →
        Event.sendFailure .ProcessError (some "Failed to store mnemonic") ∈
          (reset_entropy env bs ext st).2)) ∧
    (st.skip_backup = true → st.no_backup = false →
      ((reset_entropy env bs ext st).1).config.needs_backup = true ∧
      Event.setMnemonic (env.mnemonic_from_data
          ((env.hash (st.int_entropy ++ ext)).take (st.strength / 8))) ∈
        (reset_entropy env bs ext st).2 ∧
      (env.storeOk = true →
        Event.sendSuccess "Device successfully initialized" ∈ (reset_entropy env bs ext st).2 ∧
        ((reset_entropy env bs ext st).1).config.mnemonic =
          some (env.mnemonic_from_data
            ((env.hash (st.int_entropy ++ ext)).take (st.strength / 8)))) ∧
      (env.storeOk = false →
        Event.sendFailure .ProcessError (some "Failed to store mnemonic") ∈
          (reset_entropy env bs ext st).2)) ∧
    (st.skip_backup = false → st.no_backup = false →
      reset_entropy env bs ext st =
        ((reset_backup env bs false
            (env.mnemonic_from_data ((env.hash (st.int_entropy ++ ext)).take (st.strength / 8)))
            { st with awaiting_entropy := false, int_entropy := List.replicate 32 0 }).1,
          .deriveMnemonic ((env.hash (st.int_entropy ++ ext)).take (st.strength / 8)) ::
            ((reset_backup env bs false
                (env.mnemonic_from_data ((env.hash (st.int_entropy ++ ext)).take (st.strength / 8)))
                { st with awaiting_entropy := false, int_entropy := List.replicate 32 0 }).2 ++
              [.mnemonicClear]))) := by
  refine ⟨?_, ?_, ?_⟩
  · intro hn
    rw [reset_entropy]
    simp only [hA, Bool.not_true, Bool.false_eq_true, if_false]
    simp [sha256_Init, sha256_Update, sha256_Final, hn, config_setNoBackup, config_setMnemonic]
    rcases hso : env.storeOk with _ | _ <;> simp [hso]
  · intro hsk hn
    rw [reset_entropy]
    simp only [hA, Bool.not_true, Bool.false_eq_true, if_false]
    simp [sha256_Init, sha256_Update, sha256_Final, hn, hsk, config_setNeedsBackup,
      config_setMnemonic]
    rcases hso : env.storeOk with _ | _ <;> simp [hso]
  · intro hsk hn
    rw [reset_entropy]
    simp only [hA, Bool.not_true, Bool.false_eq_true, if_false]
    simp [sha256_Init, sha256_Update, sha256_Final, hn, hsk]

/-- An awaiting-entropy state with the no-backup option chosen. -/
def stANo : State := { stA with no_backup := true }

/-- Witness for claim C9 at the no-backup dispatch with a succeeding store. -/
theorem claim_C9_witness :
    ((reset_entropy env0 [] [] stANo).1).config.no_backup = true ∧
      Event.setMnemonic (env0.mnemonic_from_data
          ((env0.hash (stANo.int_entropy ++ [])).take (stANo.strength / 8))) ∈
        (reset_entropy env0 [] [] stANo).2 ∧
      Event.sendSuccess "Device successfully initialized" ∈ (reset_entropy env0 [] [] stANo).2 :=
  have h := (claim_C9 env0 [] [] stANo rfl).1 rfl
  ⟨h.1, h.2.1, (h.2.2.1 rfl).1⟩

/-- Claim C10: reset_backup on the empty mnemonic displays no word and
requests no confirmation, completes both passes immediately, clears
unfinished_backup and reports success; in the inline case, assuming the store
succeeds, it persists the empty mnemonic as the device secret. -/
theorem claim_C10 (env : Env) (bs : List Bool) (st : State) :
    (st.config.needs_backup = true →
      (∀ w pa wp l, Event.layoutResetWord w pa wp l ∉ (reset_backup env bs true "" st).2) ∧
      (∀ t ho, Event.buttonRequest t ho ∉ (reset_backup env bs true "" st).2) ∧
      ((reset_backup env bs true "" st).1).config.unfinished_backup = false ∧
      Event.sendSuccess "Seed successfully backed up" ∈ (reset_backup env bs true "" st).2) ∧
    (env.storeOk = true →
      (∀ w pa wp l, Event.layoutResetWord w pa wp l ∉ (reset_backup env bs false "" st).2) ∧
      (∀ t ho, Event.buttonRequest t ho ∉ (reset_backup env bs false "" st).2) ∧
      ((reset_backup env bs false "" st).1).config.unfinished_backup = false ∧
      ((reset_backup env bs false "" st).1).config.mnemonic = some "" ∧
      Event.sendSuccess "Device successfully initialized" ∈ (reset_backup env bs false "" st).2) := by
  constructor
  · intro h
    rw [reset_backup]
    simp only [h, Bool.not_true, Bool.and_false, Bool.false_eq_true, if_false, if_true]
    rw [backup_words]
    simp only [List.isEmpty_nil, if_true]
    rw [backup_words]
    simp only [List.isEmpty_nil, if_true]
    simp [config_setUnfinishedBackup, config_setNeedsBackup]
  · intro hso
    rw [reset_backup]
    simp only [Bool.false_and, Bool.false_eq_true, if_false]
    rw [backup_words]
    simp only [List.isEmpty_nil, if_true]
    rw [backup_words]
    simp only [List.isEmpty_nil, if_true]
    simp [config_setUnfinishedBackup, config_setNeedsBackup, config_setMnemonic, hso]

/-- Witness for claim C10 at a needs-backup state and at the blank state. -/
theorem claim_C10_witness :
    Event.sendSuccess "Seed successfully backed up" ∈ (reset_backup env0 [] true "" stNB).2 ∧
      ((reset_backup env0 [] false "" st0).1).config.mnemonic = some "" ∧
      Event.sendSuccess "Device successfully initialized" ∈ (reset_backup env0 [] false "" st0).2 :=
  ⟨((claim_C10 env0 [] stNB).1 rfl).2.2.2,
   ((claim_C10 env0 [] st0).2 rfl).2.2.2.1,
   ((claim_C10 env0 [] st0).2 rfl).2.2.2.2⟩

/-- Claim C8: the four settings carried by the reset request are written only
after every cancellable confirmation gate has passed, so a reset cancelled at
the create-wallet dialog, the entropy display, or PIN setup leaves the
persisted configuration unchanged; and when every gate passes the four
settings are applied. -/
theorem claim_C8 (rand : List Nat) (pinOk dr : Bool) (s : Nat) (pp pinp : Bool)
    (lang lab : String) (u2f : Nat) (sk nb : Bool) (st : State) (b1 b2 : Bool)
    (rest : List Bool) :
    ((b1 = false ∨ (dr = true ∧ b2 = false) ∨ (pinp = true ∧ pinOk = false)) →
      ((reset_init rand (b1 :: b2 :: rest) pinOk dr s pp pinp lang lab u2f sk nb st).1).config =
        st.config) ∧
    ((s = 128 ∨ s = 192 ∨ s = 256) → (dr && (sk || nb)) = false → b1 = true →
      (dr = true → b2 = true) → (pinp = true → pinOk = true) →
      ((reset_init rand (b1 :: b2 :: rest) pinOk dr s pp pinp lang lab u2f sk nb st).1).config =
          { st.config with
            passphrase_protection := pp, language := lang, label := lab, u2f_counter := u2f } ∧
        ((reset_init rand (b1 :: b2 :: rest) pinOk dr s pp pinp lang lab u2f sk nb st).1).awaiting_entropy = true) := by
  constructor
  · intro h
    rw [reset_init]
    split
    · rfl
    · split
      · simp
      · rcases h with rfl | ⟨rfl, rfl⟩ | ⟨rfl, rfl⟩
        · simp
        · by_cases hb1 : b1 <;> simp [hb1]
        · by_cases hb1 : b1
          · by_cases hdr : dr
            · by_cases hb2 : b2 <;>
                simp [hb1, hdr, hb2, reset_init_finish]
            · simp [hb1, hdr, reset_init_finish]
          · simp [hb1]
  · intro hs hdsk hb1 hb2 hpin
    rw [reset_init]
    have hsv : ¬(s ≠ 128 ∧ s ≠ 192 ∧ s ≠ 256) := by
      rcases hs with rfl | rfl | rfl <;> simp
    simp only [hsv, if_false, hdsk, Bool.false_eq_true]
    subst hb1
    by_cases hdr : dr
    · have hb2t := hb2 hdr
      subst hb2t
      by_cases hpp : pinp
      · have := hpin hpp
        subst this
        simp [hdr, hpp, reset_init_finish, config_setPassphraseProtection,
          config_setLanguage, config_setLabel, config_setU2FCounter]
      · simp [hdr, hpp, reset_init_finish, config_setPassphraseProtection,
          config_setLanguage, config_setLabel, config_setU2FCounter]
    · by_cases hpp : pinp
      · have := hpin hpp
        subst this
        simp [hdr, hpp, reset_init_finish, config_setPassphraseProtection,
          config_setLanguage, config_setLabel, config_setU2FCounter]
      · simp [hdr, hpp, reset_init_finish, config_setPassphraseProtection,
          config_setLanguage, config_setLabel, config_setU2FCounter]

/-- Witness for claim C8: cancellation at the entropy display leaves the
configuration blank, and a fully confirmed reset applies the settings. -/
theorem claim_C8_witness :
    ((reset_init (List.replicate 32 7) [true, false] true true 128 true true "en" "lbl" 5
        false false st0).1).config = st0.config ∧
      ((reset_init (List.replicate 32 7) [true, true] true true 128 true true "en" "lbl" 5
          false false st0).1).config =
        { st0.config with
          passphrase_protection := true, language := "en", label := "lbl", u2f_counter := 5 } :=
  ⟨(claim_C8 (List.replicate 32 7) true true 128 true true "en" "lbl" 5 false false st0
      true false []).1 (Or.inr (Or.inl ⟨rfl, rfl⟩)),
   ((claim_C8 (List.replicate 32 7) true true 128 true true "en" "lbl" 5 false false st0
      true true []).2 (Or.inl rfl) (by decide) rfl (fun _ => rfl) (fun _ => rfl)).1⟩

/-- Claim C6: a fully confirmed reset_backup on a non-empty mnemonic whose
words fit the display buffer shows every word exactly twice, in order, as two
full passes with pass 0 then 1, word positions starting at 1 in each pass and
incremented per word, and the last-word flag set exactly on the word that
ends the mnemonic; the whole trace is the two passes followed by the
completion events. -/
theorem claim_C6 (env : Env) (ws : List (List Char)) (st : State)
    (hv : validWords ws) (_hne : ws ≠ []) :
    (reset_backup env (List.replicate (2 * ws.length) true) false
          (String.mk (joinWords ws)) st).2 =
        passEventsW ws 0 1 ++ passEventsW ws 1 1 ++
          [Event.setUnfinishedBackup false, .setNeedsBackup false,
            .setMnemonic (String.mk (joinWords ws))] ++
          (if env.storeOk then [Event.sendSuccess "Device successfully initialized"]
            else [Event.sendFailure .ProcessError (some "Failed to store mnemonic")]) ++
          [Event.layoutHome] ∧
      (st.config.needs_backup = true →
        (reset_backup env (List.replicate (2 * ws.length) true) true
            (String.mk (joinWords ws)) st).2 =
          [Event.setUnfinishedBackup true, .setNeedsBackup false] ++
            passEventsW ws 0 1 ++ passEventsW ws 1 1 ++
            [Event.setUnfinishedBackup false, .sendSuccess "Seed successfully backed up",
              .layoutHome]) := by
  have hbtn : List.replicate (2 * ws.length) true =
      List.replicate ws.length true ++ List.replicate ws.length true := by
    rw [two_mul, List.replicate_add]
  constructor
  · rw [reset_backup]
    simp only [Bool.false_and, Bool.false_eq_true, if_false]
    rw [hbtn]
    have h0 := backup_words_confirm ws (List.replicate ws.length true) false 0 1 st hv
    have h1 := backup_words_confirm ws [] false 1 1
      { st with current_word := lastWord st.current_word ws } hv
    rw [List.append_nil] at h1
    simp only [h0, h1]
    simp [config_setUnfinishedBackup, config_setNeedsBackup, config_setMnemonic]
    split <;> simp
  · intro h
    rw [reset_backup]
    simp only [h, Bool.not_true, Bool.and_false, Bool.false_eq_true, if_false, if_true]
    rw [hbtn]
    have h0 := backup_words_confirm ws (List.replicate ws.length true) true 0 1
      (config_setNeedsBackup false (config_setUnfinishedBackup true st)) hv
    have h1 := backup_words_confirm ws [] true 1 1
      { config_setNeedsBackup false (config_setUnfinishedBackup true st) with
        current_word := lastWord
          (config_setNeedsBackup false (config_setUnfinishedBackup true st)).current_word ws } hv
    rw [List.append_nil] at h1
    simp only [h0, h1]
    simp

/-- Witness for claim C6 at a concrete two-word mnemonic. -/
theorem claim_C6_witness :
    validWords [['a', 'b'], ['c']] ∧
      (reset_backup env0 (List.replicate (2 * [['a', 'b'], ['c']].length) true) false
          (String.mk (joinWords [['a', 'b'], ['c']])) st0).2 =
        passEventsW [['a', 'b'], ['c']] 0 1 ++ passEventsW [['a', 'b'], ['c']] 1 1 ++
          [Event.setUnfinishedBackup false, .setNeedsBackup false,
            .setMnemonic (String.mk (joinWords [['a', 'b'], ['c']]))] ++
          (if env0.storeOk then [Event.sendSuccess "Device successfully initialized"]
            else [Event.sendFailure .ProcessError (some "Failed to store mnemonic")]) ++
          [Event.layoutHome] :=
  ⟨by decide, (claim_C6 env0 [['a', 'b'], ['c']] st0 (by decide) (by decide)).1⟩

/-- Counterexample to claim C5: a single 12-character word is displayed as
the truncated "abcdefghi" and then its characters after the tenth reappear
as a second word "kl" with its own confirmation, so excess characters of an
over-long word do appear as a subsequent word. -/
theorem claim_C5_counterexample :
    "abcdefghijkl".data.length = 12 ∧
      Event.layoutResetWord "abcdefghi" 0 1 false ∈
        (reset_backup env0 [true, true, true, true] false "abcdefghijkl" st0).2 ∧
      Event.layoutResetWord "kl" 0 2 true ∈
        (reset_backup env0 [true, true, true, true] false "abcdefghijkl" st0).2 := by
  decide

/-- Claim C5 as amended: each step copies at most 9 characters into
current_word and then skips exactly one character: the space separator when
the word fits, otherwise the tenth character of the word, after which the
characters from the eleventh onward are processed as a further word. -/
theorem claim_C5_amended (sep : Bool) (pass : Nat) (bs : List Bool) (w : List Char)
    (wp : Nat) (st : State) :
    ((∀ c ∈ w, c ≠ ' ') → w.length ≤ 9 → ∀ t : List Char,
      backup_words sep pass (true :: bs) (w ++ ' ' :: t) wp st =
        match backup_words sep pass bs t (wp + 1) { st with current_word := String.mk w } with
        | .done b s tr => .done b s (Event.layoutResetWord (String.mk w) pass wp t.isEmpty ::
            Event.buttonRequest .ConfirmWord true :: tr)
        | .cancelled s tr => .cancelled s (Event.layoutResetWord (String.mk w) pass wp t.isEmpty ::
            Event.buttonRequest .ConfirmWord true :: tr)) ∧
    ((∀ c ∈ w, c ≠ ' ') → 9 < w.length →
      backup_words sep pass (true :: bs) w wp st =
        match backup_words sep pass bs (w.drop 10) (wp + 1)
            { st with current_word := String.mk (w.take 9) } with
        | .done b s tr => .done b s
            (Event.layoutResetWord (String.mk (w.take 9)) pass wp (w.drop 10).isEmpty ::
              Event.buttonRequest .ConfirmWord true :: tr)
        | .cancelled s tr => .cancelled s
            (Event.layoutResetWord (String.mk (w.take 9)) pass wp (w.drop 10).isEmpty ::
              Event.buttonRequest .ConfirmWord true :: tr)) := by
  constructor
  · intro hsp hlen t
    have hsplit : splitWord (w ++ ' ' :: t) 0 = (w, ' ' :: t) :=
      splitWord_append w (' ' :: t) 0 hsp (by simpa using hlen) (Or.inr ⟨t, rfl⟩)
    have hne : (w ++ ' ' :: t).isEmpty = false := by
      cases w <;> simp
    rw [backup_words]
    simp only [hne, Bool.false_eq_true, if_false, hsplit, List.isEmpty_cons, List.tail_cons,
      if_true]
    rcases hrec : backup_words sep pass bs t (wp + 1)
        { st with current_word := String.mk w } with ⟨b2, s2, tr2⟩ | ⟨s2, tr2⟩ <;>
      simp [hrec]
  · intro hsp hlen
    have hsplit : splitWord w 0 = (w.take 9, w.drop 9) :=
      splitWord_long w 0 hsp (by omega) (by omega)
    have hne : w.isEmpty = false := by
      cases w with
      | nil => simp at hlen
      | cons a l => rfl
    have hd9 : (w.drop 9).isEmpty = false := by
      cases hdd : w.drop 9 with
      | nil =>
        have hlen9 : w.length - 9 = 0 := by
          have := congrArg List.length hdd
          simpa using this
        omega
      | cons a l => rfl
    have hd10 : (w.drop 9).tail = w.drop 10 := List.tail_drop w 9
    rw [backup_words]
    simp only [hne, Bool.false_eq_true, if_false, hsplit, hd9, hd10, if_true]
    rcases hrec : backup_words sep pass bs (w.drop 10) (wp + 1)
        { st with current_word := String.mk (w.take 9) } with ⟨b2, s2, tr2⟩ | ⟨s2, tr2⟩ <;>
      simp [hrec]

/-- Witness for the amended claim C5 at the concrete over-long word. -/
theorem claim_C5_witness :
    (∀ c ∈ "abcdefghijkl".data, c ≠ ' ') ∧ 9 < "abcdefghijkl".data.length ∧
      backup_words false 0 (true :: []) "abcdefghijkl".data 1 st0 =
        match backup_words false 0 [] ("abcdefghijkl".data.drop 10) (1 + 1)
            { st0 with current_word := String.mk ("abcdefghijkl".data.take 9) } with
        | .done b s tr => .done b s
            (Event.layoutResetWord (String.mk ("abcdefghijkl".data.take 9)) 0 1
              ("abcdefghijkl".data.drop 10).isEmpty ::
              Event.buttonRequest .ConfirmWord true :: tr)
        | .cancelled s tr => .cancelled s
            (Event.layoutResetWord (String.mk ("abcdefghijkl".data.take 9)) 0 1
              ("abcdefghijkl".data.drop 10).isEmpty ::
              Event.buttonRequest .ConfirmWord true :: tr) :=
  ⟨by decide, by decide,
    (claim_C5_amended false 0 [] "abcdefghijkl".data 1 st0).2 (by decide) (by decide)⟩

/-- Counterexample to claim C7: the unexpected-message error path of
reset_entropy returns without calling layoutHome. -/
theorem claim_C7_counterexample :
    (reset_entropy env0 [] [] st0).2 =
        [Event.sendFailure .UnexpectedMessage (some "Not in Reset mode")] ∧
      Event.layoutHome ∉ (reset_entropy env0 [] [] st0).2 := by
  decide

/-- Claim C7 as amended: every error path of the workflows returns the device
to the home display before the handler returns, except the two
unexpected-message paths, which send the failure and return with the state
and display untouched; those two paths leave no state change at all, and the
cancelled separated backup deliberately leaves unfinished_backup set. -/
theorem claim_C7_amended :
    (∀ (rand : List Nat) (btns : List Bool) (pinOk dr : Bool) (s : Nat) (pp pinp : Bool)
        (lang lab : String) (u2f : Nat) (sk nb : Bool) (st : State) (ft : FailureT)
        (msg : Option String),
      Event.sendFailure ft msg ∈
          (reset_init rand btns pinOk dr s pp pinp lang lab u2f sk nb st).2 →
        Event.layoutHome ∈ (reset_init rand btns pinOk dr s pp pinp lang lab u2f sk nb st).2) ∧
      (∀ (env : Env) (bs : List Bool) (ext : List Nat) (st : State) (ft : FailureT)
          (msg : Option String),
        Event.sendFailure ft msg ∈ (reset_entropy env bs ext st).2 →
          ft = .UnexpectedMessage ∨ Event.layoutHome ∈ (reset_entropy env bs ext st).2) ∧
      (∀ (env : Env) (bs : List Bool) (sep : Bool) (m : String) (st : State) (ft : FailureT)
          (msg : Option String),
        Event.sendFailure ft msg ∈ (reset_backup env bs sep m st).2 →
          ft = .UnexpectedMessage ∨ Event.layoutHome ∈ (reset_backup env bs sep m st).2) ∧
      (∀ (env : Env) (bs : List Bool) (ext : List Nat) (st : State),
        st.awaiting_entropy = false →
          reset_entropy env bs ext st =
            (st, [Event.sendFailure .UnexpectedMessage (some "Not in Reset mode")])) ∧
      (∀ (env : Env) (bs : List Bool) (m : String) (st : State),
        st.config.needs_backup = false →
          reset_backup env bs true m st =
            (st, [Event.sendFailure .UnexpectedMessage (some "Seed already backed up")])) := by
  refine ⟨?_, ?_, ?_, ?_, ?_⟩
  · intro rand btns pinOk dr s pp pinp lang lab u2f sk nb st ft msg h
    rw [reset_init] at h ⊢
    by_cases h1 : s ≠ 128 ∧ s ≠ 192 ∧ s ≠ 256
    · simp [h1] at h
    · simp only [h1, if_false] at h ⊢
      cases h2 : (dr && (sk || nb)) with
      | true => simp [h2]
      | false =>
        simp only [h2, Bool.false_eq_true, if_false] at h ⊢
        cases h3 : btns.headD false with
        | false => simp [h3]
        | true =>
          simp only [h3, Bool.not_true, Bool.false_eq_true, if_false] at h ⊢
          cases h4 : dr with
          | true =>
            simp only [h4, if_true] at h ⊢
            cases h5 : btns.tail.headD false with
            | false => simp [h5]
            | true =>
              simp only [h5, Bool.not_true, Bool.false_eq_true, if_false] at h ⊢
              rw [reset_init_finish] at h ⊢
              cases h6 : (pinp && !pinOk) with
              | true => simp [h6]
              | false =>
                simp only [h6, Bool.false_eq_true, if_false] at h
                cases h7 : pinp <;> simp [h7] at h
          | false =>
            simp only [h4, Bool.false_eq_true, if_false] at h ⊢
            rw [reset_init_finish] at h ⊢
            cases h6 : (pinp && !pinOk) with
            | true => simp [h6]
            | false =>
              simp only [h6, Bool.false_eq_true, if_false] at h
              cases h7 : pinp <;> simp [h7] at h
  · intro env bs ext st ft msg h
    by_cases hA : st.awaiting_entropy
    · right
      rw [reset_entropy]
      simp only [hA, Bool.not_true, Bool.false_eq_true, if_false]
      split
      · simp
      · have hh := reset_backup_home env bs false
          (env.mnemonic_from_data ((sha256_Final env (sha256_Update (sha256_Update sha256_Init
            st.int_entropy) ext)).take (st.strength / 8)))
          { st with awaiting_entropy := false, int_entropy := List.replicate 32 0 }
          (fun hc => absurd hc (by decide))
        simp
        simpa using hh
    · left
      rw [reset_entropy] at h
      simp only [Bool.not_eq_true] at hA
      simp [hA] at h
      exact h.1
  · intro env bs sep m st ft msg h
    by_cases hg : (sep && !st.config.needs_backup) = true
    · left
      rw [reset_backup] at h
      simp [hg] at h
      exact h.1
    · right
      refine reset_backup_home env bs sep m st ?_
      intro hsep
      subst hsep
      simp only [Bool.true_and, Bool.not_eq_true'] at hg
      simpa using hg
  · intro env bs ext st h
    simp [reset_entropy, h]
  · intro env bs m st h
    simp [reset_backup, h]

/-- Witness for the amended claim C7: a declined create-wallet confirmation
reaches home, and the unexpected-entropy path returns unchanged. -/
theorem claim_C7_witness :
    Event.layoutHome ∈
        (reset_init [] [false] true false 128 false false "" "" 0 false false st0).2 ∧
      reset_entropy env0 [] [] st0 =
        (st0, [Event.sendFailure .UnexpectedMessage (some "Not in Reset mode")]) :=
  ⟨claim_C7_amended.1 [] [false] true false 128 false false "" "" 0 false false st0
      .ActionCancelled none (by decide),
    claim_C7_amended.2.2.2.1 env0 [] [] st0 rfl⟩

/-- Counterexample to claim C1: cancelling at the display-entropy
confirmation returns with the freshly generated entropy still in int_entropy,
and a completed backup returns with the last word still in current_word;
neither buffer is zeroed on those exits. -/
theorem claim_C1_counterexample :
    ((reset_init (List.replicate 32 7) [true, false] true true 128 false false "" "" 0 false
          false st0).1).int_entropy = List.replicate 32 7 ∧
      List.replicate 32 (7 : Nat) ≠ List.replicate 32 0 ∧
      ((reset_backup env0 [true, true, true, true] false "abc def" st0).1).current_word =
        "def" ∧
      ("def" : String) ≠ "" := by
  refine ⟨?_, by decide, ?_, by decide⟩ <;> decide

/-- Claim C1 as amended: the only active zeroing of a secret buffer is of
int_entropy in reset_entropy, immediately after mnemonic derivation, on every
path past the awaiting gate; cancellation at the display-entropy confirmation
in reset_init returns with the fresh entropy still in int_entropy, and
reset_backup returns with current_word holding the last displayed word, so
neither of those exits zeroes its buffer. -/
theorem claim_C1_amended :
    (∀ (env : Env) (bs : List Bool) (ext : List Nat) (st : State),
      st.awaiting_entropy = true →
        ((reset_entropy env bs ext st).1).int_entropy = List.replicate 32 0) ∧
      (∀ (rand : List Nat) (rest : List Bool) (pinOk : Bool) (s : Nat) (pp pinp : Bool)
          (lang lab : String) (u2f : Nat) (st : State),
        (s = 128 ∨ s = 192 ∨ s = 256) →
          ((reset_init rand (true :: false :: rest) pinOk true s pp pinp lang lab u2f false
              false st).1).int_entropy = rand) ∧
      (∀ (env : Env) (ws : List (List Char)) (st : State), validWords ws →
        ((reset_backup env (List.replicate (2 * ws.length) true) false
            (String.mk (joinWords ws)) st).1).current_word = lastWord st.current_word ws) := by
  refine ⟨?_, ?_, ?_⟩
  · intro env bs ext st hA
    rw [reset_entropy]
    simp only [hA, Bool.not_true, Bool.false_eq_true, if_false]
    simp only [sha256_Init, sha256_Update, sha256_Final]
    split
    · split <;> simp [config_setNoBackup, config_setNeedsBackup, config_setMnemonic] <;>
        split <;> simp
    · exact reset_backup_int_entropy _ _ _ _ _
  · intro rand rest pinOk s pp pinp lang lab u2f st hs
    have hsv : ¬(s ≠ 128 ∧ s ≠ 192 ∧ s ≠ 256) := by
      rcases hs with rfl | rfl | rfl <;> simp
    rw [reset_init]
    simp [hsv]
  · intro env ws st hv
    have hbtn : List.replicate (2 * ws.length) true =
        List.replicate ws.length true ++ List.replicate ws.length true := by
      rw [two_mul, List.replicate_add]
    rw [reset_backup]
    simp only [Bool.false_and, Bool.false_eq_true, if_false]
    rw [hbtn]
    have h0 := backup_words_confirm ws (List.replicate ws.length true) false 0 1 st hv
    have h1 := backup_words_confirm ws [] false 1 1
      { st with current_word := lastWord st.current_word ws } hv
    rw [List.append_nil] at h1
    simp only [h0, h1]
    have hlw : lastWord (lastWord st.current_word ws) ws = lastWord st.current_word ws := by
      cases ws with
      | nil => rfl
      | cons w t => rfl
    simp [config_setUnfinishedBackup, config_setNeedsBackup, config_setMnemonic, hlw]
    split <;> simp [hlw]

/-- Witness for the amended claim C1 at concrete runs of all three parts. -/
theorem claim_C1_witness :
    ((reset_entropy env0 [] [] stA).1).int_entropy = List.replicate 32 0 ∧
      ((reset_init (List.replicate 32 9) (true :: false :: []) true true 128 true false "" ""
          0 false false st0).1).int_entropy = List.replicate 32 9 ∧
      ((reset_backup env0 (List.replicate (2 * [['h', 'i']].length) true) false
          (String.mk (joinWords [['h', 'i']])) st0).1).current_word =
        lastWord st0.current_word [['h', 'i']] :=
  ⟨claim_C1_amended.1 env0 [] [] stA rfl,
    claim_C1_amended.2.1 (List.replicate 32 9) [] true 128 true false "" "" 0 st0 (Or.inl rfl),
    claim_C1_amended.2.2 env0 [['h', 'i']] st0 (by decide)⟩
